import Mathlib

/-!
Formal model of the Bedrock trading platform's decision-arbitration and
backtest subsystems, together with the pagination and chart-data logic of
its web frontend.

Scores, prices and weights are modelled as rationals (`ℚ`); optional
component scores are `Option`-valued; fallible operations return `Except`.
-/

namespace Bedrock

/-! ### Decision Arbiter data model -/

/-- Tolerance on the fusion-weight sum: `1e-6`. -/
def weightTol : ℚ := 1 / 1000000

/-- Neutral fallback score substituted for a missing ML or sentiment
component (`ML_FALLBACK_SCORE = 50.0` in
`docs/MODEL_DEGRADATION_STRATEGY.md`). -/
def mlFallbackScore : ℚ := 50

/-- Sentiment labels produced by the LLM sentiment scorer. -/
inductive SentimentLabel
  | BULLISH
  | BEARISH
  | NEUTRAL
deriving DecidableEq, Repr

/-- Accept/reject decision of the arbiter. -/
inductive Decision
  | APPROVED
  | REJECTED
deriving DecidableEq, Repr

/-- Error taxonomy of the arbiter: the only error it ever surfaces is a
configuration error (weights not summing to 1.0 within tolerance). -/
inductive ArbError
  | configurationError
deriving DecidableEq, Repr

/-- Per-evaluation score bundle. A missing ML score or a missing sentiment
reading is `none`. -/
structure ScoreSet where
  rule_score : ℚ
  ml_score : Option ℚ
  sentiment_label : Option SentimentLabel
  sentiment_confidence : Option ℚ
deriving DecidableEq, Repr

/-- Fusion weights and approval threshold. -/
structure ArbitrationConfig where
  weight_rule : ℚ
  weight_ml : ℚ
  weight_llm : ℚ
  min_approval_score : ℚ
  adaptive_threshold_enabled : Bool
deriving DecidableEq, Repr

/-- Sum of the three fusion weights of a config. -/
def weightSum (c : ArbitrationConfig) : ℚ :=
  c.weight_rule + c.weight_ml + c.weight_llm

/-- Modelled from the spec: constructing an `ArbitrationConfig` validates
that the three weights sum to `1.0 ± 1e-6` and fails with
`ConfigurationError` otherwise, never adjusting the weights (the concrete
Python config model is not part of the shipped sources; §3 and §8 of the
spec define the construction-time invariant). -/
def mkArbitrationConfig (wr wm wl ms : ℚ) (ad : Bool) :
    Except ArbError ArbitrationConfig :=
  if |wr + wm + wl - 1| ≤ weightTol then
    .ok ⟨wr, wm, wl, ms, ad⟩
  else
    .error .configurationError

/-- Sentiment normalization to the 0–100 scale: BULLISH → `50 + 50·conf`,
BEARISH → `50 − 50·conf`, NEUTRAL → `50`; a missing label or missing
confidence degrades to the neutral 50. -/
def normalize_sentiment : Option SentimentLabel → Option ℚ → ℚ
  | some .BULLISH, some conf => 50 + 50 * conf
  | some .BEARISH, some conf => 50 - 50 * conf
  | some .NEUTRAL, _ => 50
  | _, _ => mlFallbackScore

/-- Clamp a fused score to `[0, 100]`. -/
def clampScore (x : ℚ) : ℚ := max 0 (min x 100)

/-- Modelled from the spec: weighted fusion of the three component scores
(§4.1), with a missing ML score replaced by the neutral fallback 50.0 and
sentiment normalized (missing sentiment likewise degrading to 50.0), the
result clamped to `[0, 100]`. The concrete Python arbiter is not part of
the shipped sources. -/
def fusedScore (s : ScoreSet) (c : ArbitrationConfig) : ℚ :=
  clampScore (c.weight_rule * s.rule_score
    + c.weight_ml * s.ml_score.getD mlFallbackScore
    + c.weight_llm * normalize_sentiment s.sentiment_label s.sentiment_confidence)

/-- Modelled from the spec: `arbitrate(scores, config)` (§4.1) fails only
when the config weights do not sum to 1.0 within tolerance; otherwise it
returns the clamped fused score and the threshold decision
(`APPROVED` iff `final_score ≥ min_approval_score`; the adaptive-threshold
correction is an unspecified tunable, so the threshold is used as-is).
Missing component scores are handled by neutral fallback and never raise. -/
def arbitrate (s : ScoreSet) (c : ArbitrationConfig) :
    Except ArbError (ℚ × Decision) :=
  if |weightSum c - 1| ≤ weightTol then
    let f := fusedScore s c
    .ok (f, if c.min_approval_score ≤ f then .APPROVED else .REJECTED)
  else
    .error .configurationError

/-! ### Position sizing

Tier constants and the tier-wise linear map, from
`services/decision_engine/IMPLEMENTATION_SUMMARY.md`
(`calculate_position_weight`): high confidence `[85,100] → [0.8,1.0]`,
medium confidence `[70,85) → [0.5,0.7)`, low confidence `[0,70) → [0.3,0.5)`. -/

def HIGH_CONFIDENCE_THRESHOLD : ℚ := 85

def MEDIUM_CONFIDENCE_THRESHOLD : ℚ := 70

def HIGH_CONFIDENCE_WEIGHT_MIN : ℚ := 8 / 10

def HIGH_CONFIDENCE_WEIGHT_MAX : ℚ := 1

def MEDIUM_CONFIDENCE_WEIGHT_MIN : ℚ := 5 / 10

def MEDIUM_CONFIDENCE_WEIGHT_MAX : ℚ := 7 / 10

def LOW_CONFIDENCE_WEIGHT_MIN : ℚ := 3 / 10

def LOW_CONFIDENCE_WEIGHT_MAX : ℚ := 5 / 10

/-- The documented tier-wise linear position weight
(`calculate_position_weight` in `IMPLEMENTATION_SUMMARY.md`; the medium and
low branches, elided there, follow the documented ranges `70–85 → 0.5–0.7`
and `0–70 → 0.3–0.5` with the same linear-ratio shape as the high branch). -/
def calculate_position_weight (rule_engine_score : ℚ) : ℚ :=
  if HIGH_CONFIDENCE_THRESHOLD ≤ rule_engine_score then
    HIGH_CONFIDENCE_WEIGHT_MIN
      + (rule_engine_score - HIGH_CONFIDENCE_THRESHOLD)
          / (100 - HIGH_CONFIDENCE_THRESHOLD)
          * (HIGH_CONFIDENCE_WEIGHT_MAX - HIGH_CONFIDENCE_WEIGHT_MIN)
  else if MEDIUM_CONFIDENCE_THRESHOLD ≤ rule_engine_score then
    MEDIUM_CONFIDENCE_WEIGHT_MIN
      + (rule_engine_score - MEDIUM_CONFIDENCE_THRESHOLD)
          / (HIGH_CONFIDENCE_THRESHOLD - MEDIUM_CONFIDENCE_THRESHOLD)
          * (MEDIUM_CONFIDENCE_WEIGHT_MAX - MEDIUM_CONFIDENCE_WEIGHT_MIN)
  else
    LOW_CONFIDENCE_WEIGHT_MIN
      + rule_engine_score / MEDIUM_CONFIDENCE_THRESHOLD
          * (LOW_CONFIDENCE_WEIGHT_MAX - LOW_CONFIDENCE_WEIGHT_MIN)

/-! ### Backtest engine data model

The Python backtest engine itself is not part of the shipped sources (only
its documentation, type declarations and frontend callers are); the replay
loop, position lifecycle and ledger below are modelled from §4.3 of the
spec. -/

/-- One historical bar, per §6 (`Bar = {open_time, open, high, low, close,
volume}`; `open` is a Lean keyword, hence `open_p`). -/
structure Bar where
  open_time : ℕ
  open_p : ℚ
  high : ℚ
  low : ℚ
  close : ℚ
  volume : ℚ
deriving DecidableEq, Repr

/-- The part of an APPROVED Signal that the replay loop consumes. -/
structure Sig where
  entry_price : ℚ
  stop_loss_price : ℚ
  profit_target_price : ℚ
  suggested_position_weight : ℚ
deriving DecidableEq, Repr

/-- Ephemeral simulated position, owned by one BacktestRun. `entry_bar` is
the index of the bar on which the position was opened. -/
structure SimulatedPosition where
  position_id : ℕ
  entry_price : ℚ
  stop_loss_price : ℚ
  profit_target_price : ℚ
  quantity : ℚ
  entry_bar : ℕ
  entry_commission : ℚ
deriving DecidableEq, Repr

/-- Trade row kind (`src/webapp/src/types/backtest.ts`). -/
inductive TradeType
  | ENTRY
  | EXIT
deriving DecidableEq, Repr

/-- One ledger row; `realized_pnl` is set only on EXIT rows (§3). -/
structure Trade where
  position_id : ℕ
  trade_type : TradeType
  price : ℚ
  quantity : ℚ
  commission : ℚ
  slippage : ℚ
  realized_pnl : Option ℚ
deriving DecidableEq, Repr

/-- Commission rate 0.1% (baseline configuration). -/
def commission_rate : ℚ := 1 / 1000

/-- Slippage rate 0.05% (baseline configuration). -/
def slippage_rate : ℚ := 1 / 2000

/-- Mutable replay state: cash balance, the at-most-one open position, the
trade ledger (most recent row first), and the next position id. -/
structure EngineState where
  balance : ℚ
  pos : Option SimulatedPosition
  trades : List Trade
  next_position_id : ℕ
deriving DecidableEq, Repr

/-- Modelled from the spec: exit conditions of §4.3 step 2 against one
bar's range — if `low ≤ stop_loss_price` exit at the stop (checked first,
so the stop takes priority when both stop and target are touched), else if
`high ≥ profit_target_price` exit at the target, else hold. -/
def checkExit (p : SimulatedPosition) (b : Bar) : Option ℚ :=
  if b.low ≤ p.stop_loss_price then some p.stop_loss_price
  else if p.profit_target_price ≤ b.high then some p.profit_target_price
  else none

/-- Modelled from the spec: exit conditions are evaluated only on bars
strictly after the entry bar (§4.3: "the bar *after* entry, never the
entry bar itself"); `t` is the index of the bar being processed. -/
def processExit (p : SimulatedPosition) (t : ℕ) (b : Bar) : Option ℚ :=
  if p.entry_bar < t then checkExit p b else none

/-- The EXIT ledger row for closing `p` at `exit_price`:
`realized_pnl = (exit − entry)·qty − exit_commission − entry_commission −
slippage` (§4.3 step 2). -/
def exitTrade (p : SimulatedPosition) (exit_price : ℚ) : Trade :=
  let notional := exit_price * p.quantity
  let exit_commission := notional * commission_rate
  let slip := notional * slippage_rate
  { position_id := p.position_id,
    trade_type := .EXIT,
    price := exit_price,
    quantity := p.quantity,
    commission := exit_commission,
    slippage := slip,
    realized_pnl := some ((exit_price - p.entry_price) * p.quantity
      - exit_commission - p.entry_commission - slip) }

/-- Close the open position `p` at `exit_price`: credit the gross pnl less
exit fees, clear the position slot, and record the EXIT row. -/
def closePosition (p : SimulatedPosition) (exit_price : ℚ)
    (st : EngineState) : EngineState :=
  let notional := exit_price * p.quantity
  { balance := st.balance + (exit_price - p.entry_price) * p.quantity
      - notional * commission_rate - notional * slippage_rate,
    pos := none,
    trades := exitTrade p exit_price :: st.trades,
    next_position_id := st.next_position_id }

/-- Open a position from an APPROVED signal at bar `t`:
`quantity = (balance · suggested_position_weight) / entry_price`, the
entry commission debited immediately, and an ENTRY row (with no realized
pnl) recorded (§4.3 step 1). -/
def openPosition (sig : Sig) (t : ℕ) (st : EngineState) : EngineState :=
  let notional := st.balance * sig.suggested_position_weight
  let qty := notional / sig.entry_price
  let comm := notional * commission_rate
  { balance := st.balance - comm,
    pos := some ⟨st.next_position_id, sig.entry_price, sig.stop_loss_price,
      sig.profit_target_price, qty, t, comm⟩,
    trades := ({ position_id := st.next_position_id,
                 trade_type := .ENTRY,
                 price := sig.entry_price,
                 quantity := qty,
                 commission := comm,
                 slippage := 0,
                 realized_pnl := none } : Trade) :: st.trades,
    next_position_id := st.next_position_id + 1 }

/-- Modelled from the spec: processing of one bar (§4.3). `gen` is the
Signal Generator pipeline (score providers + arbiter + sizing); it is fed
`causal`, the bars at or before the current bar `t`, and returns the
APPROVED signal, if any (`none` covers REJECTED decisions and degraded
pipeline failures alike). With an open position the bar is an exit check;
with no open position it is an entry opportunity. -/
def stepBar (gen : List Bar → Option Sig) (causal : List Bar) (t : ℕ)
    (st : EngineState) (b : Bar) : EngineState :=
  match st.pos with
  | some p =>
    match processExit p t b with
    | some q => closePosition p q st
    | none => st
  | none =>
    match gen causal with
    | some sig => openPosition sig t st
    | none => st

/-- Modelled from the spec: the strictly causal replay loop (§4.3) —
iterate bars in chronological order; the bar at index `hist.length` is
processed with exactly `hist ++ [b]`, the data at or before it, passed to
the signal pipeline. -/
def replayAux (gen : List Bar → Option Sig) :
    List Bar → EngineState → List Bar → EngineState
  | _, st, [] => st
  | hist, st, b :: rest =>
      replayAux gen (hist ++ [b])
        (stepBar gen (hist ++ [b]) hist.length st b) rest

/-- Fresh replay state for a given initial balance. -/
def initState (initial_balance : ℚ) : EngineState :=
  ⟨initial_balance, none, [], 0⟩

/-- Replay state after consuming the first `n` bars. -/
def stateAfter (gen : List Bar → Option Sig) (initial_balance : ℚ)
    (bars : List Bar) (n : ℕ) : EngineState :=
  replayAux gen [] (initState initial_balance) (bars.take n)

/-- The Signal generated "as of" bar `t`: the pipeline applied to the bars
at or before `t` (and nothing else). -/
def signalAt (gen : List Bar → Option Sig) (bars : List Bar) (t : ℕ) :
    Option Sig :=
  gen (bars.take (t + 1))

/-- Modelled from the spec: finalization of a completed run — §4.3 marks a
run COMPLETED only "when the ledger and metrics are finalized", and the
§8 trade-pairing property together with the documented baseline ledger
(15 ENTRY + 15 EXIT rows) require the finalized ledger to contain no
dangling ENTRY, so finalization closes any still-open position at the last
bar's close. -/
def finalize (bars : List Bar) (st : EngineState) : EngineState :=
  match st.pos with
  | some p =>
    closePosition p
      (match bars.getLast? with
       | some b => b.close
       | none => p.entry_price) st
  | none => st

/-- A full completed backtest: replay every bar, then finalize. -/
def runBacktest (gen : List Bar → Option Sig) (initial_balance : ℚ)
    (bars : List Bar) : EngineState :=
  finalize bars (replayAux gen [] (initState initial_balance) bars)

/-- Number of EXIT rows of a ledger = number of completed round trips
(= `total_trades` of the metrics, §4.4). -/
def totalTrades (ts : List Trade) : ℕ :=
  (ts.filter fun tr => tr.trade_type == TradeType.EXIT).length

/-- Number of ENTRY rows of a ledger. -/
def entryCount (ts : List Trade) : ℕ :=
  (ts.filter fun tr => tr.trade_type == TradeType.ENTRY).length

/-! ### BacktestRun status lifecycle -/

/-- `BacktestStatus` (`src/webapp/src/types/backtest.ts`). -/
inductive BacktestStatus
  | PENDING
  | RUNNING
  | COMPLETED
  | FAILED
deriving DecidableEq, Repr

/-- Observable lifecycle state of one BacktestRun: its status, how many
bars of the acquired series have been consumed, the series length, and
whether the metrics have been computed. -/
structure RunState where
  status : BacktestStatus
  consumed : ℕ
  total : ℕ
  metricsDone : Bool
deriving DecidableEq, Repr

/-- Modelled from the spec: the BacktestRun state machine
`PENDING → RUNNING → {COMPLETED, FAILED}` (§4.3). A run starts RUNNING
atomically with acquiring the bar series (or fails on a data-acquisition
error); while RUNNING it consumes one bar at a time; it completes only
once every bar is consumed and the metrics are computed; it may fail (or
be cancelled) while RUNNING. Terminal states have no outgoing
transitions. -/
inductive RunStep : RunState → RunState → Prop
  | start (n : ℕ) :
      RunStep ⟨.PENDING, 0, n, false⟩ ⟨.RUNNING, 0, n, false⟩
  | startFail (n : ℕ) :
      RunStep ⟨.PENDING, 0, n, false⟩ ⟨.FAILED, 0, n, false⟩
  | processBar (k n : ℕ) (h : k < n) :
      RunStep ⟨.RUNNING, k, n, false⟩ ⟨.RUNNING, k + 1, n, false⟩
  | complete (n : ℕ) :
      RunStep ⟨.RUNNING, n, n, false⟩ ⟨.COMPLETED, n, n, true⟩
  | fail (k n : ℕ) :
      RunStep ⟨.RUNNING, k, n, false⟩ ⟨.FAILED, k, n, false⟩

/-! ### Frontend: pagination parameter conversion

`BacktestService.getBacktests` and `BacktestService.getBacktestTrades`
(`src/webapp/src/services/backtestService.ts`) convert `{limit, offset}`
into the backend's `{page, page_size}`. -/

/-- JavaScript `x || d` on an optional numeric parameter: an absent value
and the falsy number `0` both yield the default. -/
def jsOrDefault (x : Option ℕ) (d : ℕ) : ℕ :=
  match x with
  | some v => if v = 0 then d else v
  | none => d

/-- The `{page, page_size}` pair sent to the backend. -/
structure PageParams where
  page : ℕ
  page_size : ℕ
deriving DecidableEq, Repr

/-- `BacktestService.getBacktests`: `page = params?.offset ?
Math.floor(params.offset / (params.limit || 20)) + 1 : 1` (the JavaScript
conditional treats an absent or zero offset as falsy) and
`page_size = params.limit || 20`. `Math.floor` of a quotient of naturals
is natural division. -/
def getBacktests_pageParams (limit offset : Option ℕ) : PageParams :=
  { page :=
      match offset with
      | some o => if o = 0 then 1 else o / jsOrDefault limit 20 + 1
      | none => 1,
    page_size := jsOrDefault limit 20 }

/-- `BacktestService.getBacktestTrades`: identical conversion to
`getBacktests`. -/
def getBacktestTrades_pageParams (limit offset : Option ℕ) : PageParams :=
  { page :=
      match offset with
      | some o => if o = 0 then 1 else o / jsOrDefault limit 20 + 1
      | none => 1,
    page_size := jsOrDefault limit 20 }

/-! ### Frontend: candlestick chart data

`CandlestickChart` in
`src/webapp/src/components/BacktestTaskList/BacktestTaskList.tsx` filters,
sorts and maps the fetched klines before handing them to the chart
library. -/

/-- The fields of a fetched kline that `CandlestickChart` reads. A `none`
models a `null`/`undefined` runtime value (the component guards against
them even though the TypeScript type declares them non-nullable). -/
structure Kline where
  open_time : Option ℕ
  open_price : Option ℚ
  high_price : Option ℚ
  low_price : Option ℚ
  close_price : Option ℚ
deriving DecidableEq, Repr

/-- The filter of `CandlestickChart`: `k.open_time && k.open_price != null
&& k.high_price != null && k.low_price != null && k.close_price != null`
(an `open_time` of `0` is falsy in JavaScript and is dropped too). -/
def klineValid (k : Kline) : Bool :=
  (match k.open_time with
   | some v => v != 0
   | none => false)
    && k.open_price.isSome && k.high_price.isSome
    && k.low_price.isSome && k.close_price.isSome

/-- Sort key of the comparator `(a, b) => a.open_time - b.open_time`. -/
def klineTimeKey (k : Kline) : ℕ := k.open_time.getD 0

/-- Ascending-by-`open_time` ordering used to sort the kline array. -/
def klineLe (a b : Kline) : Prop := klineTimeKey a ≤ klineTimeKey b

instance : DecidableRel klineLe := fun _ _ => Nat.decLe _ _

instance : IsTotal Kline klineLe := ⟨fun _ _ => Nat.le_total _ _⟩

instance : IsTrans Kline klineLe := ⟨fun _ _ _ => Nat.le_trans⟩

/-- One point handed to `lightweight-charts`. -/
structure CandlePoint where
  time : ℕ
  open_p : ℚ
  high : ℚ
  low : ℚ
  close : ℚ
deriving DecidableEq, Repr

/-- The map of `CandlestickChart`:
`{time: Math.floor(open_time / 1000), open, high, low, close}`; the
`getD` defaults are unreachable for klines that pass `klineValid`. -/
def toCandlePoint (k : Kline) : CandlePoint :=
  { time := klineTimeKey k / 1000,
    open_p := k.open_price.getD 0,
    high := k.high_price.getD 0,
    low := k.low_price.getD 0,
    close := k.close_price.getD 0 }

/-- The candlestick series `CandlestickChart` passes to the chart library:
filter out invalid klines, sort ascending by `open_time`, then map to
chart points. -/
def candlestickData (data : List Kline) : List CandlePoint :=
  ((data.filter klineValid).insertionSort klineLe).map toCandlePoint

/-! ## Theorems -/

/-- **C1**: the documented position-sizing tiers are *not* continuous at
the boundary 85 — every weight below the boundary stays strictly under
`0.7` while the value at 85 is `0.8`, a jump of more than `0.1` (the left
limit at 85 is `0.7 ≠ 0.8`). The function therefore cannot be continuous
on `[0,100]`, refuting the continuity part of the claim; strict
monotonicity is untouched by the jump. -/
theorem position_weight_jump_at_85 :
    (∀ s : ℚ, s < 85 → calculate_position_weight s < 7 / 10) ∧
    calculate_position_weight 85 = 4 / 5 := by
  constructor
  · intro s hs
    unfold calculate_position_weight HIGH_CONFIDENCE_THRESHOLD
      MEDIUM_CONFIDENCE_THRESHOLD HIGH_CONFIDENCE_WEIGHT_MIN
      HIGH_CONFIDENCE_WEIGHT_MAX MEDIUM_CONFIDENCE_WEIGHT_MIN
      MEDIUM_CONFIDENCE_WEIGHT_MAX LOW_CONFIDENCE_WEIGHT_MIN
      LOW_CONFIDENCE_WEIGHT_MAX
    rw [if_neg (by linarith)]
    split
    · linarith
    · next h =>
      have hs70 : s < 70 := lt_of_not_le h
      linarith
  · norm_num [calculate_position_weight, HIGH_CONFIDENCE_THRESHOLD,
      HIGH_CONFIDENCE_WEIGHT_MIN, HIGH_CONFIDENCE_WEIGHT_MAX]

/-- Witness for C1 at the concrete input `84.99`: the weight just left of
the boundary is below `0.7` while the weight at `85` is `0.8`. -/
theorem position_weight_jump_at_85_witness :
    calculate_position_weight (8499 / 100) < 7 / 10 ∧
    calculate_position_weight 85 = 4 / 5 :=
  ⟨position_weight_jump_at_85.1 (8499 / 100) (by norm_num),
    position_weight_jump_at_85.2⟩

/-- A configuration at the very edge of the weight tolerance (the weights
sum to `1 + 1e-6`, which construction accepts), used to refute C2 as
literally stated. -/
def cfgAtTol : ArbitrationConfig := ⟨1000001 / 1000000, 0, 0, 60, false⟩

/-- A rule-only score set (ML and sentiment both unavailable) with the
maximal rule score. -/
def ruleOnly100 : ScoreSet := ⟨100, none, none, none⟩

/-- **C2 (counterexample)**: for the valid config `cfgAtTol` and rule
score 100 with both ML and sentiment unavailable, the fused score the
arbiter returns is the clamped value `100`, which differs from
`weight_rule·rule + (weight_ml+weight_llm)·50 = 100.0001` — so the
claimed equation does not hold for *every* valid config. -/
theorem arbitrate_fallback_clamped_counterexample :
    |weightSum cfgAtTol - 1| ≤ weightTol ∧
    arbitrate ruleOnly100 cfgAtTol = .ok (100, .APPROVED) ∧
    cfgAtTol.weight_rule * ruleOnly100.rule_score
        + (cfgAtTol.weight_ml + cfgAtTol.weight_llm) * 50 ≠ 100 := by
  refine ⟨by norm_num [weightSum, cfgAtTol, weightTol, abs_le], ?_,
    by norm_num [cfgAtTol, ruleOnly100]⟩
  have hw : |weightSum cfgAtTol - 1| ≤ weightTol := by
    norm_num [weightSum, cfgAtTol, weightTol, abs_le]
  rw [arbitrate, if_pos hw]
  norm_num [fusedScore, cfgAtTol, ruleOnly100, normalize_sentiment,
    mlFallbackScore, clampScore, min_def, max_def]

/-- **C2 (amended)**: with both ML and sentiment unavailable each missing
component is replaced by the neutral 50.0 and no weight renormalization
happens: for every rule score and every config whose weights sum to 1.0
within tolerance, the arbiter returns the *clamped* combination
`clamp(weight_rule·rule + (weight_ml+weight_llm)·50, 0, 100)` — which
equals the unclamped combination whenever that value lies in `[0,100]` —
and the decision is computed by thresholding that fused value. -/
theorem arbitrate_fallback_neutral (rule : ℚ) (c : ArbitrationConfig)
    (hc : |weightSum c - 1| ≤ weightTol) :
    arbitrate ⟨rule, none, none, none⟩ c =
      .ok (clampScore (c.weight_rule * rule + (c.weight_ml + c.weight_llm) * 50),
        if c.min_approval_score ≤
            clampScore (c.weight_rule * rule + (c.weight_ml + c.weight_llm) * 50)
          then .APPROVED else .REJECTED) ∧
    (∀ x : ℚ, 0 ≤ x → x ≤ 100 → clampScore x = x) := by
  constructor
  · have hf : fusedScore ⟨rule, none, none, none⟩ c =
        clampScore (c.weight_rule * rule + (c.weight_ml + c.weight_llm) * 50) := by
      simp only [fusedScore, normalize_sentiment, mlFallbackScore, Option.getD]
      congr 1
      ring
    rw [arbitrate, if_pos hc, hf]
  · intro x h0 h100
    unfold clampScore
    rw [min_eq_left h100, max_eq_right h0]

/-- Witness for C2 (amended) at rule score 80 and weights
`(0.5, 0.3, 0.2)`: the fused score is `clamp(40 + 25) = 65 ≥ 60`,
hence APPROVED. -/
theorem arbitrate_fallback_neutral_witness :
    arbitrate ⟨80, none, none, none⟩ ⟨1/2, 3/10, 1/5, 60, false⟩ =
      .ok (clampScore ((1/2 : ℚ) * 80 + ((3/10 : ℚ) + 1/5) * 50),
        if (60 : ℚ) ≤ clampScore ((1/2 : ℚ) * 80 + ((3/10 : ℚ) + 1/5) * 50)
          then .APPROVED else .REJECTED) :=
  (arbitrate_fallback_neutral 80 ⟨1/2, 3/10, 1/5, 60, false⟩
    (by norm_num [weightSum, weightTol])).1

/-- **C3**: constructing an `ArbitrationConfig` fails with
`ConfigurationError` exactly when the weight sum deviates from 1.0 by more
than `1e-6`, and on success the weights are kept exactly as given (never
silently corrected); and for *every* score set — missing components
included — `arbitrate` raises exactly when the config weights are outside
tolerance (raises-iff). -/
theorem config_error_iff :
    (∀ wr wm wl ms : ℚ, ∀ ad : Bool,
      (|wr + wm + wl - 1| ≤ weightTol →
        mkArbitrationConfig wr wm wl ms ad = .ok ⟨wr, wm, wl, ms, ad⟩) ∧
      (weightTol < |wr + wm + wl - 1| →
        mkArbitrationConfig wr wm wl ms ad = .error .configurationError)) ∧
    (∀ (s : ScoreSet) (c : ArbitrationConfig),
      arbitrate s c = .error .configurationError ↔
        weightTol < |weightSum c - 1|) ∧
    (∀ (s : ScoreSet) (c : ArbitrationConfig),
      (∃ r, arbitrate s c = .ok r) ↔ |weightSum c - 1| ≤ weightTol) := by
  refine ⟨fun wr wm wl ms ad => ⟨fun h => ?_, fun h => ?_⟩,
    fun s c => ?_, fun s c => ?_⟩
  · rw [mkArbitrationConfig, if_pos h]
  · rw [mkArbitrationConfig, if_neg (not_le.mpr h)]
  · rw [arbitrate]
    split_ifs with h
    · simp [not_lt.mpr h]
    · simp [not_le.mp h]
  · rw [arbitrate]
    split_ifs with h
    · exact ⟨fun _ => h, fun _ => ⟨_, rfl⟩⟩
    · simp [h]

/-- Witness for C3: in-tolerance weights `(0.5, 0.3, 0.2)` construct the
config unchanged, while `arbitrate` on a score set with both optional
components missing raises `ConfigurationError` for the out-of-tolerance
weights `(0.5, 0.25, 0.1)` — and only because of the weights. -/
theorem config_error_iff_witness :
    mkArbitrationConfig (1/2) (3/10) (1/5) 60 false =
      .ok ⟨1/2, 3/10, 1/5, 60, false⟩ ∧
    arbitrate ⟨75, none, none, none⟩ ⟨1/2, 1/4, 1/10, 60, false⟩ =
      .error .configurationError :=
  ⟨(config_error_iff.1 (1/2) (3/10) (1/5) 60 false).1
      (by norm_num [weightTol]),
    (config_error_iff.2.1 ⟨75, none, none, none⟩
      ⟨1/2, 1/4, 1/10, 60, false⟩).mpr
      (by norm_num [weightTol, weightSum, lt_abs])⟩

/-- **C9**: both `getBacktests` and `getBacktestTrades` convert
`{limit, offset}` identically: `page_size` is `limit` (defaulting to 20
when absent); `page` is 1 for an absent or zero offset and
`⌊offset / page_size⌋ + 1` for a positive offset; consequently the window
the backend is asked for starts at `(page−1)·page_size`, which is at most
`offset` and equals it exactly when `page_size` divides `offset` — a
non-aligned offset is rounded down to the enclosing page boundary. -/
theorem pagination_conversion (limit offset : Option ℕ)
    (hl : ∀ l, limit = some l → 0 < l) :
    getBacktestTrades_pageParams limit offset
        = getBacktests_pageParams limit offset ∧
    (getBacktests_pageParams limit offset).page_size = limit.getD 20 ∧
    ((offset = none ∨ offset = some 0) →
      (getBacktests_pageParams limit offset).page = 1) ∧
    (∀ o : ℕ, offset = some o → 0 < o →
      (getBacktests_pageParams limit offset).page = o / limit.getD 20 + 1 ∧
      ((getBacktests_pageParams limit offset).page - 1) * limit.getD 20 ≤ o ∧
      (((getBacktests_pageParams limit offset).page - 1) * limit.getD 20 = o ↔
        limit.getD 20 ∣ o)) := by
  have hjs : jsOrDefault limit 20 = limit.getD 20 := by
    cases limit with
    | none => rfl
    | some l =>
      simp [jsOrDefault, Option.getD, Nat.pos_iff_ne_zero.mp (hl l rfl)]
  refine ⟨rfl, by simp [getBacktests_pageParams, hjs], ?_, ?_⟩
  · rintro (rfl | rfl) <;> simp [getBacktests_pageParams]
  · rintro o rfl ho
    have hne : o ≠ 0 := Nat.pos_iff_ne_zero.mp ho
    refine ⟨by simp [getBacktests_pageParams, hjs, hne], ?_, ?_⟩
    · simpa [getBacktests_pageParams, hjs, hne] using
        Nat.div_mul_le_self o (limit.getD 20)
    · simp only [getBacktests_pageParams, hjs, if_neg hne,
        Nat.add_sub_cancel]
      exact ⟨fun h => ⟨o / limit.getD 20, by rw [mul_comm]; exact h.symm⟩,
        fun h => Nat.div_mul_cancel h⟩

/-- Witness for C9 at `limit = 7`, `offset = 10`: `page_size = 7`,
`page = ⌊10/7⌋ + 1 = 2`, and the returned window starts at
`(2−1)·7 = 7 ≠ 10` since 7 does not divide 10. -/
theorem pagination_conversion_witness :
    (getBacktests_pageParams (some 7) (some 10)).page = 10 / 7 + 1 ∧
    ((getBacktests_pageParams (some 7) (some 10)).page - 1) * 7 ≤ 10 ∧
    ¬ ((getBacktests_pageParams (some 7) (some 10)).page - 1) * 7 = 10 := by
  have h := (pagination_conversion (some 7) (some 10)
    (fun l hl => by cases hl; norm_num)).2.2.2 10 rfl (by norm_num)
  exact ⟨h.1, h.2.1, fun hc => absurd (h.2.2.mp hc) (by decide)⟩

/-- A valid kline at millisecond timestamp 1000. -/
def kline1000 : Kline := ⟨some 1000, some 1, some 2, some 1, some 2⟩

/-- A valid kline at millisecond timestamp 1500 — the same floored
second as `kline1000`. -/
def kline1500 : Kline := ⟨some 1500, some 1, some 2, some 1, some 2⟩

/-- **C10 (counterexample)**: two valid klines 500 ms apart survive the
filter, but `Math.floor(open_time/1000)` maps both to second 1, so the
series handed to the chart is *not* strictly time-ordered. -/
theorem candlestick_not_strictly_ordered :
    ¬ (candlestickData [kline1000, kline1500]).Pairwise
        (fun a b => a.time < b.time) := by
  decide

/-- **C10 (amended)**: the candlestick series equals the fetched klines
with every entry lacking a truthy `open_time` or having a null price
removed, sorted ascending by `open_time` and mapped to
`{time = ⌊open_time/1000⌋, open, high, low, close}`; the resulting series
is time-ordered in the *non-decreasing* sense (strictness can fail when
two klines share a floored second). -/
theorem candlestick_sorted (data : List Kline) :
    candlestickData data =
      ((data.filter klineValid).insertionSort klineLe).map toCandlePoint ∧
    (candlestickData data).Pairwise (fun a b => a.time ≤ b.time) := by
  refine ⟨rfl, ?_⟩
  have hs : ((data.filter klineValid).insertionSort klineLe).Pairwise klineLe :=
    List.sorted_insertionSort klineLe _
  exact hs.map toCandlePoint fun a b hab => Nat.div_le_div_right hab

/-- **C4**: exit discipline of the replay step. A bar at index `t` that is
not strictly after the open position's entry bar never triggers an exit
(the state is untouched); on a strictly later bar, if `low ≤
stop_loss_price` the position is closed at exactly `stop_loss_price`
regardless of the high (stop-loss priority when both stop and target are
touched), else if `high ≥ profit_target_price` it is closed at exactly
`profit_target_price`, else it is held. -/
theorem exit_check_discipline (gen : List Bar → Option Sig)
    (causal : List Bar) (t : ℕ) (st : EngineState) (b : Bar)
    (p : SimulatedPosition) (hp : st.pos = some p) :
    (t ≤ p.entry_bar → stepBar gen causal t st b = st) ∧
    (p.entry_bar < t → b.low ≤ p.stop_loss_price →
      stepBar gen causal t st b = closePosition p p.stop_loss_price st ∧
      (exitTrade p p.stop_loss_price).price = p.stop_loss_price) ∧
    (p.entry_bar < t → ¬ b.low ≤ p.stop_loss_price →
      p.profit_target_price ≤ b.high →
      stepBar gen causal t st b = closePosition p p.profit_target_price st ∧
      (exitTrade p p.profit_target_price).price = p.profit_target_price) ∧
    (p.entry_bar < t → ¬ b.low ≤ p.stop_loss_price →
      ¬ p.profit_target_price ≤ b.high →
      stepBar gen causal t st b = st) := by
  obtain ⟨bal, pos, tr, nid⟩ := st
  simp only [EngineState.pos] at hp
  subst hp
  refine ⟨fun h1 => ?_, fun h1 h2 => ⟨?_, rfl⟩, fun h1 h2 h3 => ⟨?_, rfl⟩,
    fun h1 h2 h3 => ?_⟩
  · simp [stepBar, processExit, not_lt.mpr h1]
  · simp [stepBar, processExit, checkExit, h1, h2]
  · simp [stepBar, processExit, checkExit, h1, h2, h3]
  · simp [stepBar, processExit, checkExit, h1, h2, h3]

/-- Witness for C4: a bar whose range touches both the stop (95) and the
target (110) of a position entered on an earlier bar closes it at the
stop price, while the same bar at the entry index leaves the state
untouched. -/
theorem exit_check_discipline_witness :
    stepBar (fun _ => none) [] 1
        ⟨1000, some ⟨0, 100, 95, 110, 5, 0, 1/2⟩, [], 1⟩
        ⟨1, 100, 120, 90, 92, 1⟩
      = closePosition ⟨0, 100, 95, 110, 5, 0, 1/2⟩ 95
          ⟨1000, some ⟨0, 100, 95, 110, 5, 0, 1/2⟩, [], 1⟩ ∧
    stepBar (fun _ => none) [] 0
        ⟨1000, some ⟨0, 100, 95, 110, 5, 0, 1/2⟩, [], 1⟩
        ⟨1, 100, 120, 90, 92, 1⟩
      = ⟨1000, some ⟨0, 100, 95, 110, 5, 0, 1/2⟩, [], 1⟩ :=
  ⟨((exit_check_discipline (fun _ => none) [] 1
      ⟨1000, some ⟨0, 100, 95, 110, 5, 0, 1/2⟩, [], 1⟩
      ⟨1, 100, 120, 90, 92, 1⟩ ⟨0, 100, 95, 110, 5, 0, 1/2⟩ rfl).2.1
      (by norm_num) (by norm_num)).1,
    (exit_check_discipline (fun _ => none) [] 0
      ⟨1000, some ⟨0, 100, 95, 110, 5, 0, 1/2⟩, [], 1⟩
      ⟨1, 100, 120, 90, 92, 1⟩ ⟨0, 100, 95, 110, 5, 0, 1/2⟩ rfl).1
      (by norm_num)⟩

/-- **C5**: single-step soundness of the BacktestRun lifecycle — no
transition leaves COMPLETED or FAILED (they are terminal), RUNNING is
entered only from PENDING, COMPLETED is entered only from RUNNING with the
full bar series consumed and the metrics computed, and FAILED is entered
only from PENDING or RUNNING; every reachable execution therefore moves
along `PENDING → RUNNING → {COMPLETED, FAILED}`. -/
theorem status_machine (s s2 : RunState) (h : RunStep s s2) :
    (s.status ≠ .COMPLETED ∧ s.status ≠ .FAILED) ∧
    (s2.status = .RUNNING → s.status ≠ .RUNNING → s.status = .PENDING) ∧
    (s2.status = .COMPLETED →
      s.status = .RUNNING ∧ s.consumed = s.total ∧ s2.metricsDone = true) ∧
    (s2.status = .FAILED →
      s.status = .PENDING ∨ s.status = .RUNNING) := by
  cases h <;> simp

/-- Witness for C5: the `start` transition on a five-bar run, checked at
its concrete source and target states. -/
theorem status_machine_witness :
    ((⟨.PENDING, 0, 5, false⟩ : RunState).status ≠ .COMPLETED ∧
      (⟨.PENDING, 0, 5, false⟩ : RunState).status ≠ .FAILED) ∧
    ((⟨.RUNNING, 0, 5, false⟩ : RunState).status = .RUNNING →
      (⟨.PENDING, 0, 5, false⟩ : RunState).status ≠ .RUNNING →
      (⟨.PENDING, 0, 5, false⟩ : RunState).status = .PENDING) ∧
    ((⟨.RUNNING, 0, 5, false⟩ : RunState).status = .COMPLETED →
      (⟨.PENDING, 0, 5, false⟩ : RunState).status = .RUNNING ∧
        (⟨.PENDING, 0, 5, false⟩ : RunState).consumed
          = (⟨.PENDING, 0, 5, false⟩ : RunState).total ∧
        (⟨.RUNNING, 0, 5, false⟩ : RunState).metricsDone = true) ∧
    ((⟨.RUNNING, 0, 5, false⟩ : RunState).status = .FAILED →
      (⟨.PENDING, 0, 5, false⟩ : RunState).status = .PENDING ∨
        (⟨.PENDING, 0, 5, false⟩ : RunState).status = .RUNNING) :=
  status_machine ⟨.PENDING, 0, 5, false⟩ ⟨.RUNNING, 0, 5, false⟩
    (RunStep.start 5)

/-! ### Ledger pairing invariant (C6) -/

/-- A reversed ledger (most recent row first) consisting of matched
EXIT/ENTRY pairs: each EXIT sits directly atop its ENTRY with the same
position id, carries a realized pnl, and the ENTRY carries none. -/
inductive PairedRev : List Trade → Prop
  | nil : PairedRev []
  | pair (x e : Trade) (rest : List Trade) :
      x.trade_type = .EXIT → e.trade_type = .ENTRY →
      x.position_id = e.position_id →
      x.realized_pnl.isSome = true → e.realized_pnl = none →
      PairedRev rest → PairedRev (x :: e :: rest)

/-- Replay-state ledger invariant: with no open position the ledger is
fully paired; with an open position it is one dangling ENTRY row,
belonging to that position, atop a fully paired rest. -/
def LedgerInv (st : EngineState) : Prop :=
  match st.pos with
  | none => PairedRev st.trades
  | some p => ∃ e rest, st.trades = e :: rest ∧ e.trade_type = .ENTRY ∧
      e.position_id = p.position_id ∧ e.realized_pnl = none ∧ PairedRev rest

theorem ledgerInv_init (ib : ℚ) : LedgerInv (initState ib) :=
  PairedRev.nil

theorem ledgerInv_close (p : SimulatedPosition) (q : ℚ)
    (st : EngineState) (hp : st.pos = some p) (h : LedgerInv st) :
    PairedRev (closePosition p q st).trades := by
  unfold LedgerInv at h
  rw [hp] at h
  obtain ⟨e, rest, htr, hty, hid, hnone, hrest⟩ := h
  show PairedRev (exitTrade p q :: st.trades)
  rw [htr]
  exact PairedRev.pair _ _ _ rfl hty hid.symm rfl hnone hrest

theorem ledgerInv_step (gen : List Bar → Option Sig) (causal : List Bar)
    (t : ℕ) (st : EngineState) (b : Bar) (h : LedgerInv st) :
    LedgerInv (stepBar gen causal t st b) := by
  obtain ⟨bal, pos, tr, nid⟩ := st
  cases pos with
  | some p =>
    show LedgerInv (match processExit p t b with
      | some q => closePosition p q ⟨bal, some p, tr, nid⟩
      | none => ⟨bal, some p, tr, nid⟩)
    cases processExit p t b with
    | some q =>
      exact ledgerInv_close p q ⟨bal, some p, tr, nid⟩ rfl h
    | none => exact h
  | none =>
    show LedgerInv (match gen causal with
      | some sig => openPosition sig t ⟨bal, none, tr, nid⟩
      | none => ⟨bal, none, tr, nid⟩)
    cases gen causal with
    | some sig =>
      exact ⟨_, tr, rfl, rfl, rfl, rfl, h⟩
    | none => exact h

theorem ledgerInv_replayAux (gen : List Bar → Option Sig) :
    ∀ (rem hist : List Bar) (st : EngineState), LedgerInv st →
      LedgerInv (replayAux gen hist st rem) := by
  intro rem
  induction rem with
  | nil => intro hist st h; exact h
  | cons b rest ih =>
    intro hist st h
    exact ih (hist ++ [b]) _ (ledgerInv_step gen (hist ++ [b]) hist.length st b h)

theorem ledgerInv_finalize (bars : List Bar) (st : EngineState)
    (h : LedgerInv st) : PairedRev (finalize bars st).trades := by
  obtain ⟨bal, pos, tr, nid⟩ := st
  cases pos with
  | some p =>
    exact ledgerInv_close p _ ⟨bal, some p, tr, nid⟩ rfl h
  | none => exact h

theorem pairedRev_facts (ts : List Trade) (h : PairedRev ts) :
    ts.length = 2 * totalTrades ts ∧
    entryCount ts = totalTrades ts ∧
    (∀ x ∈ ts, x.trade_type = .EXIT →
      ∃ e, e ∈ ts ∧ e.trade_type = .ENTRY ∧
        e.position_id = x.position_id) ∧
    (∀ x ∈ ts, x.realized_pnl.isSome = true → x.trade_type = .EXIT) := by
  induction h with
  | nil => exact ⟨rfl, rfl, by simp, by simp⟩
  | pair x e rest hx he hid hxs hen hrest ih =>
    obtain ⟨ihlen, ihent, ihmatch, ihpnl⟩ := ih
    have hxx : (x.trade_type == TradeType.EXIT) = true := by rw [hx]; rfl
    have hee : (e.trade_type == TradeType.EXIT) = false := by rw [he]; rfl
    have hxe : (x.trade_type == TradeType.ENTRY) = false := by rw [hx]; rfl
    have hen2 : (e.trade_type == TradeType.ENTRY) = true := by rw [he]; rfl
    refine ⟨?_, ?_, ?_, ?_⟩
    · simp only [totalTrades] at ihlen
      simp [totalTrades, List.filter_cons, hxx, hee]
      omega
    · simp only [totalTrades, entryCount] at ihent
      simp [totalTrades, entryCount, List.filter_cons, hxx, hee, hxe, hen2]
      omega
    · intro y hy hyex
      rcases hy with _ | ⟨_, hy⟩
      · exact ⟨e, by simp, he, hid.symm⟩
      · rcases hy with _ | ⟨_, hy⟩
        · rw [hyex] at he
          exact absurd he (by simp)
        · obtain ⟨e2, he2mem, he2ty, he2id⟩ := ihmatch y hy hyex
          exact ⟨e2, by simp [he2mem], he2ty, he2id⟩
    · intro y hy hys
      rcases hy with _ | ⟨_, hy⟩
      · exact hx
      · rcases hy with _ | ⟨_, hy⟩
        · rw [hen] at hys
          simp at hys
        · exact ihpnl y hy hys

/-- **C6**: for every completed run (any signal pipeline, any initial
balance, any bar series), the finalized trade ledger has exactly
`2 × total_trades` rows — as many ENTRY rows as round trips — every EXIT
row has a matching ENTRY row with the same position id, and a realized
pnl is present only on EXIT rows. -/
theorem trade_pairing (gen : List Bar → Option Sig) (ib : ℚ)
    (bars : List Bar) :
    (runBacktest gen ib bars).trades.length
        = 2 * totalTrades (runBacktest gen ib bars).trades ∧
    entryCount (runBacktest gen ib bars).trades
        = totalTrades (runBacktest gen ib bars).trades ∧
    (∀ x ∈ (runBacktest gen ib bars).trades, x.trade_type = .EXIT →
      ∃ e, e ∈ (runBacktest gen ib bars).trades ∧ e.trade_type = .ENTRY ∧
        e.position_id = x.position_id) ∧
    (∀ x ∈ (runBacktest gen ib bars).trades,
      x.realized_pnl.isSome = true → x.trade_type = .EXIT) :=
  pairedRev_facts _
    (ledgerInv_finalize bars _
      (ledgerInv_replayAux gen bars [] (initState ib) (ledgerInv_init ib)))

/-- The signal pipeline used for the C6 witness: approve a fixed signal
(entry 100, stop 95, target 110, weight 1/2) exactly when one bar of
history is available. -/
def genW : List Bar → Option Sig := fun l =>
  if l.length = 1 then some ⟨100, 95, 110, 1/2⟩ else none

/-- Witness for C6: a two-bar run (entry on the first bar, stop-loss exit
on the second) yields a 2-row ledger whose EXIT row has a matching ENTRY
row with the same position id. -/
theorem trade_pairing_witness :
    (runBacktest genW 1000 [⟨0, 100, 101, 99, 100, 1⟩,
        ⟨1, 100, 100, 90, 92, 1⟩]).trades.length = 2 ∧
    ∃ e, e ∈ (runBacktest genW 1000 [⟨0, 100, 101, 99, 100, 1⟩,
        ⟨1, 100, 100, 90, 92, 1⟩]).trades ∧ e.trade_type = .ENTRY ∧
      e.position_id = 0 := by
  have h := trade_pairing genW 1000
    [⟨0, 100, 101, 99, 100, 1⟩, ⟨1, 100, 100, 90, 92, 1⟩]
  have htr : (runBacktest genW 1000 [⟨0, 100, 101, 99, 100, 1⟩,
      ⟨1, 100, 100, 90, 92, 1⟩]).trades
      = [⟨0, .EXIT, 95, 5, 19/40, 19/80, some (-2097/80)⟩,
        ⟨0, .ENTRY, 100, 5, 1/2, 0, none⟩] := by
    norm_num [runBacktest, replayAux, stepBar, genW, openPosition,
      closePosition, exitTrade, processExit, checkExit, initState, finalize,
      commission_rate, slippage_rate]
  refine ⟨?_, h.2.2.1 ⟨0, .EXIT, 95, 5, 19/40, 19/80, some (-2097/80)⟩
    (by rw [htr]; exact List.mem_cons_self _ _) rfl⟩
  rw [h.1, htr]
  decide

/-- **C7**: no lookahead. The Signal generated as of bar `t` is a function
of the bars at or before `t` alone, and so is the whole replay state after
processing bar `t`: two bar series that agree up to and including `t` (fed
to the same signal pipeline, hence with identical score-provider outputs)
produce the identical Signal at `t` and identical replay states, no matter
how the bars after `t` differ. -/
theorem no_lookahead (gen : List Bar → Option Sig) (ib : ℚ)
    (bars bars2 : List Bar) (t : ℕ)
    (h : bars.take (t + 1) = bars2.take (t + 1)) :
    signalAt gen bars t = signalAt gen bars2 t ∧
    stateAfter gen ib bars (t + 1) = stateAfter gen ib bars2 (t + 1) := by
  unfold signalAt stateAfter
  rw [h]
  exact ⟨rfl, rfl⟩

/-- Witness for C7: two three-bar series that agree on bars 0 and 1 but
differ wildly on bar 2 generate the same signal and state as of bar 1. -/
theorem no_lookahead_witness :
    signalAt genW [⟨0, 100, 101, 99, 100, 1⟩, ⟨1, 100, 100, 90, 92, 1⟩,
        ⟨2, 92, 93, 91, 92, 1⟩] 1
      = signalAt genW [⟨0, 100, 101, 99, 100, 1⟩, ⟨1, 100, 100, 90, 92, 1⟩,
        ⟨2, 500, 900, 1, 7, 3⟩] 1 ∧
    stateAfter genW 1000 [⟨0, 100, 101, 99, 100, 1⟩,
        ⟨1, 100, 100, 90, 92, 1⟩, ⟨2, 92, 93, 91, 92, 1⟩] 2
      = stateAfter genW 1000 [⟨0, 100, 101, 99, 100, 1⟩,
        ⟨1, 100, 100, 90, 92, 1⟩, ⟨2, 500, 900, 1, 7, 3⟩] 2 :=
  no_lookahead genW 1000 _ _ 1 rfl

end Bedrock
